import Mathlib

/-! Verification development for the review reconciliation and aggregation
pipeline (transform_raw_data.py, serving_layer.py, dashboard.py).

Conventions of the shallow embedding:
* A pandas cell that may be NaN/NaT is an `Option` value.
* `RawReview.score` holds the value of the score column after
  pd.to_numeric with errors set to coerce (transform_raw_data.py line 132):
  a cell that fails numeric parsing is `none`.  Likewise `RawReview.at_`
  holds the result of pd.to_datetime with mixed format and errors set to coerce
  (line 129), with timestamps modelled as minutes since an epoch; an
  unparseable timestamp is `none`.
* Machine floats of the source are modelled as exact rationals.
-/

/-- Decimal digit value of a character, `none` when not a digit. -/
def digitVal (c : Char) : Option Nat :=
  if c.isDigit then some (c.toNat - 48) else none

/-- Tail of the Python integer-literal grammar: digits with single medial
underscores, as accepted by int(). -/
def parsePyNatTail (acc : Nat) : List Char → Option Nat
  | [] => some acc
  | '_' :: c :: rest =>
      match digitVal c with
      | some d => parsePyNatTail (acc * 10 + d) rest
      | none => none
  | ['_'] => none
  | c :: rest =>
      match digitVal c with
      | some d => parsePyNatTail (acc * 10 + d) rest
      | none => none

/-- Nonempty digit string (with medial underscores) to a natural number. -/
def parsePyNat : List Char → Option Nat
  | [] => none
  | c :: rest =>
      match digitVal c with
      | some d => parsePyNatTail d rest
      | none => none

/-- Surrounding whitespace stripped from a character list, as Python
int() and float() do to their argument. -/
def trimChars (cs : List Char) : List Char :=
  ((cs.dropWhile Char.isWhitespace).reverse.dropWhile Char.isWhitespace).reverse

/-- Python int(s) on a string: surrounding whitespace stripped, optional
sign, digits.  Returns `none` where int() raises ValueError. -/
def parsePyInt (s : String) : Option Int :=
  match trimChars s.toList with
  | '+' :: rest => (parsePyNat rest).map Int.ofNat
  | '-' :: rest => (parsePyNat rest).map (fun n => -(n : Int))
  | cs => (parsePyNat cs).map Int.ofNat

/-- Fractional digits of a decimal literal: value of the digit string read
as the numerator over 10^length. -/
def parseFracDigits : List Char → Option ℚ
  | [] => some 0
  | c :: rest =>
      match digitVal c, parseFracDigits rest with
      | some d, some q => some ((d + q) / 10)
      | _, _ => none

/-- Unsigned decimal literal `digits`, `digits.digits`, `digits.` or
`.digits`.  Exponent forms are not used by any input exercised here. -/
def parsePyFloatCore (cs : List Char) : Option ℚ :=
  match cs.splitOn '.' with
  | [intPart] => (parsePyNat intPart).map (fun n => (n : ℚ))
  | [intPart, fracPart] =>
      match intPart, fracPart with
      | [], [] => none
      | [], f => parseFracDigits f
      | i, f =>
          match parsePyNat i, parseFracDigits f with
          | some n, some q => some ((n : ℚ) + q)
          | _, _ => none
  | _ => none

/-- Python float(s) / pandas numeric parsing of a plain decimal string:
whitespace stripped, optional sign, decimal literal.  `none` models a
parse failure (float() raising, or pd.to_numeric coercing to NaN). -/
def parsePyFloat (s : String) : Option ℚ :=
  match trimChars s.toList with
  | '+' :: rest => parsePyFloatCore rest
  | '-' :: rest => (parsePyFloatCore rest).map Neg.neg
  | cs => parsePyFloatCore cs

instance {ε α : Type} [DecidableEq ε] [DecidableEq α] : DecidableEq (Except ε α) := by
  intro a b
  cases a <;> cases b
  case error.error e f => exact decidable_of_iff (e = f) (by simp)
  case ok.ok x y => exact decidable_of_iff (x = y) (by simp)
  all_goals exact isFalse (by simp)

/-- pd.to_numeric of a value, with errors set to coerce, on a nullable string cell. -/
def toNumericCoerce (v : Option String) : Option ℚ :=
  v.bind parsePyFloat

/-- str(value).replace of commas and plus signs by the empty string,
as in clean_installs (transform_raw_data.py lines 68-70). -/
def stripCommaPlus (s : String) : String :=
  String.mk (s.toList.filter (fun c => c ≠ ',' ∧ c ≠ '+'))

/-- clean_installs (transform_raw_data.py lines 68-70): a missing cell
becomes 0; otherwise commas and plus signs are stripped and the remainder
is passed to int(), whose ValueError propagates and aborts the run
(modelled as `Except.error`). -/
def clean_installs (val : Option String) : Except String Int :=
  match val with
  | none => .ok 0
  | some s =>
      match parsePyInt (stripCommaPlus s) with
      | some n => .ok n
      | none => .error "ValueError"

/-- parse_price (transform_raw_data.py lines 37-41): None or the literal
Free become 0.0; otherwise a dollar sign is stripped and the remainder is
passed to float(), whose ValueError propagates. -/
def parse_price (value : Option String) : Except String ℚ :=
  match value with
  | none => .ok 0
  | some s =>
      if s = "Free" then .ok 0
      else
        match parsePyFloat (String.mk (s.toList.filter (fun c => c ≠ '$'))) with
        | some q => .ok q
        | none => .error "ValueError"

/-- Price cleaning as actually run on the catalog column
(transform_raw_data.py line 74): pd.to_numeric with errors set to coerce, then fillna(0.0). -/
def price_cleaned (v : Option String) : ℚ :=
  (toNumericCoerce v).getD 0

/-! Data model of the reconciliation stage (transform_raw_data.py)

`RawReview` is one row of the merged working table built at line 126,
with the numeric and timestamp coercions of lines 129-133 already
recorded as `Option` values (see the file header).  `CatalogEntry` is one
row of the cleaned apps metadata produced by transform_apps_metadata.
`CleanReview` is one row of the final reconciled table (line 151).
-/

structure CatalogEntry where
  appId : Option String
  title : Option String
  installs : Int
  score : ℚ
  price : ℚ
deriving DecidableEq, Repr

structure RawReview where
  app_id : Option String
  app_name : Option String
  reviewId : Option String
  userName : Option String
  score : Option ℚ
  content : Option String
  thumbsUpCount : Option ℚ
  at_ : Option Int
deriving DecidableEq, Repr

structure CleanReview where
  app_id : Option String
  app_name : Option String
  reviewId : Option String
  userName : Option String
  score : Int
  content : Option String
  thumbsUpCount : ℚ
  at_ : Option Int
deriving DecidableEq, Repr

/-- The filtering predicate of transform_raw_data.py lines 137-140:
the coerced timestamp is not NaT and the coerced score lies between 1
and 5 inclusive (pandas Series.between is inclusive on both ends; a NaN
score fails the test). -/
def validRow (r : RawReview) : Bool :=
  r.at_.isSome &&
    (match r.score with
     | some s => decide (1 ≤ s ∧ s ≤ 5)
     | none => false)

/-- pandas drop_duplicates on a subset keeping the first occurrence: keep a row when its
key has not been seen before, walking the table in order.  NaN keys are
treated as equal to each other, exactly as pandas does. -/
def dropDuplicatesBy {α β : Type} [DecidableEq β] (key : α → β) :
    List α → List β → List α
  | [], _ => []
  | r :: rs, seen =>
      if key r ∈ seen then dropDuplicatesBy key rs seen
      else r :: dropDuplicatesBy key rs (key r :: seen)

/-- Build a final row from a merged row: app_name is the resolved name,
astype(int) truncates the score (equal to the floor on the nonnegative
scores that pass the filter), thumbsUpCount was fillna(0). -/
def finalizeRow (r : RawReview) (name : Option String) : CleanReview :=
  { app_id := r.app_id
    app_name := name
    reviewId := r.reviewId
    userName := r.userName
    score := ⌊r.score.getD 0⌋
    content := r.content
    thumbsUpCount := r.thumbsUpCount.getD 0
    at_ := r.at_ }

/-- The left merge of line 145 followed by the fillna of line 146, for a
single review row: every catalog row whose appId equals the review's
app_id produces one output row whose app_name is the catalog title when
non-null, else the name the source supplied; with no match the single
output row keeps the source name.  (In the pipeline the catalog has been
deduplicated on appId, so at most one row matches.) -/
def enrichRow (c : List CatalogEntry) (r : RawReview) : List CleanReview :=
  match c.filter (fun e => e.appId == r.app_id) with
  | [] => [finalizeRow r r.app_name]
  | es => es.map (fun e => finalizeRow r (e.title <|> r.app_name))

/-- transform_reviews (transform_raw_data.py lines 126-154) from the
merged working table on: filter out rows with an unparseable timestamp
or an out-of-range score (lines 137-140), drop duplicate reviewIds
keeping the first survivor (line 144), then left-join the catalog and
resolve app_name (lines 145-146). -/
def transform_reviews (c : List CatalogEntry) (m : List RawReview) :
    List CleanReview :=
  ((dropDuplicatesBy RawReview.reviewId (m.filter validRow) []).map
      (enrichRow c)).flatten

/-- The one data-quality counter the code computes and prints (line 136
and line 141): initial_count minus the size of the filtered table. -/
def invalidRemovedCount (m : List RawReview) : Nat :=
  m.length - (m.filter validRow).length

/-- Number of rows dropped by the reviewId deduplication of line 144.
The code neither computes nor reports this quantity; it is defined here
to state that fact. -/
def dupRemovedCount (m : List RawReview) : Nat :=
  (m.filter validRow).length -
    (dropDuplicatesBy RawReview.reviewId (m.filter validRow) []).length

/-- First catalog title found for an app_id, as the deduplicated-catalog
merge of line 145 delivers it: the matched row's title, which may itself
be null. -/
def lookupTitle (c : List CatalogEntry) (aid : Option String) : Option String :=
  match c.find? (fun e => e.appId == aid) with
  | some e => e.title
  | none => none

/-- The app_name resolution of line 146 on one row:
title.fillna(app_name). -/
def resolvedName (c : List CatalogEntry) (r : RawReview) : Option String :=
  lookupTitle c r.app_id <|> r.app_name

/-! Physical sources and the failure behaviour of the transform run

A configured input file is either absent, present but zero bytes long,
or present with rows.  Python exceptions that escape and kill the run
are modelled as `Except.error`.
-/

/-- State of one configured input file. -/
inductive SrcState (α : Type) where
  | missing : SrcState α
  | emptyFile : SrcState α
  | present : List α → SrcState α
deriving DecidableEq

/-- One row of the raw apps metadata CSV, all cells as nullable text. -/
structure RawCat where
  appId : Option String
  title : Option String
  installs : Option String
  score : Option String
  price : Option String
deriving DecidableEq, Repr

/-- dropna with how set to all keeps a metadata row with at least one non-null
cell. -/
def rawCatNonEmpty (r : RawCat) : Bool :=
  r.appId.isSome || r.title.isSome || r.installs.isSome ||
    r.score.isSome || r.price.isSome

/-- transform_apps_metadata (transform_raw_data.py lines 47-78).
A missing file prints an error and returns an empty, column-less
DataFrame (modelled as `none`); a zero-byte file makes pd.read_csv raise
EmptyDataError, killing the run; otherwise all-null rows are dropped,
appId duplicates are dropped keeping the first, installs is cleaned by
clean_installs (whose ValueError propagates), and score and price are
coerced with to_numeric then fillna(0.0). -/
def transform_apps_metadata (src : SrcState RawCat) :
    Except String (Option (List CatalogEntry)) :=
  match src with
  | .missing => .ok none
  | .emptyFile => .error "EmptyDataError"
  | .present rows => do
      let rows := rows.filter rawCatNonEmpty
      let rows := dropDuplicatesBy RawCat.appId rows []
      let entries ← rows.mapM (fun r => do
        let inst ← clean_installs r.installs
        pure { appId := r.appId
               title := r.title
               installs := inst
               score := (toNumericCoerce r.score).getD 0
               price := (toNumericCoerce r.price).getD 0 : CatalogEntry })
      pure (some entries)

/-- Reading one review source (transform_raw_data.py lines 112-124).
The Bool argument tells whether the file is the JSONL source.  A missing
file is skipped with no message (the bare continue of line 113).  A
zero-byte CSV makes pd.read_csv raise EmptyDataError; a zero-byte JSONL
yields an empty frame that carries none of the canonical columns, which
the returned flag records (the added app_name column aside). -/
def readReviewSource (isJsonl : Bool) (s : SrcState RawReview) :
    Except String (Option (Bool × List RawReview)) :=
  match s with
  | .missing => .ok none
  | .emptyFile => if isJsonl then .ok (some (false, [])) else .error "EmptyDataError"
  | .present rows => .ok (some (true, rows))

/-- The whole transform_reviews run (transform_raw_data.py lines
107-154) over the configured review sources: read each source in
declaration order, concatenate the frames (pd.concat raises ValueError
when every source was skipped; the later column access raises KeyError
when no surviving frame supplied the canonical columns), coerce, filter,
print the invalid counter, deduplicate, and finally select appId and
title from the catalog frame — which raises KeyError when the metadata
file was missing, because transform_apps_metadata then returned a
column-less DataFrame.  On success the reconciled table and the printed
invalid counter are returned. -/
def transform_reviews_run (apps : Option (List CatalogEntry))
    (srcs : List (Bool × SrcState RawReview)) :
    Except String (List CleanReview × Nat) := do
  let frames ← srcs.mapM (fun p => readReviewSource p.1 p.2)
  let frames := frames.reduceOption
  if frames.isEmpty then
    throw "ValueError: no objects to concatenate"
  else if frames.all (fun f => !f.1) then
    throw "KeyError: at"
  else
    let merged := (frames.map (fun f => f.2)).flatten
    match apps with
    | none => throw "KeyError: appId, title"
    | some c => pure (transform_reviews c merged, invalidRemovedCount merged)

/-- main of transform_raw_data.py (lines 156-158): clean the metadata,
then reconcile the review sources against it. -/
def transform_main (meta : SrcState RawCat)
    (srcs : List (Bool × SrcState RawReview)) :
    Except String (List CleanReview × Nat) := do
  let apps ← transform_apps_metadata meta
  transform_reviews_run apps srcs

/-! Serving layer (serving_layer.py) and the dashboard rolling mean

`SRow` is one row of the processed reviews table as the serving layer
loads it (timestamps already parsed back at line 88; `at_` again in
minutes, with the calendar date its floor-division by 1440).
-/

structure SRow where
  app_id : Option String
  app_name : Option String
  reviewId : Option String
  userName : Option String
  score : Int
  content : Option String
  thumbsUpCount : ℚ
  at_ : Int
deriving DecidableEq, Repr

/-- Truncation of a timestamp to its calendar date (dt.date, line 56). -/
def dateOf (t : Int) : Int :=
  Int.fdiv t 1440

structure AppKPI where
  app_id : String
  app_name : String
  num_reviews : Nat
  avg_rating : ℚ
  pct_low_rating : ℚ
  first_review_date : Int
  most_recent_review_date : Int
deriving DecidableEq, Repr

structure DailyMetric where
  date : Int
  daily_num_reviews : Nat
  daily_avg_rating : ℚ
deriving DecidableEq, Repr

/-- Round half to even at integer precision, the rounding of
numpy/pandas Series.round. -/
def roundHalfEven (q : ℚ) : Int :=
  let f := ⌊q⌋
  if q - f < 1/2 then f
  else if q - f > 1/2 then f + 1
  else if f % 2 = 0 then f else f + 1

/-- Series.round(2): round half to even at two decimal places. -/
def round2 (q : ℚ) : ℚ :=
  (roundHalfEven (q * 100) : ℚ) / 100

/-- Distinct values of a list in first-appearance order, skipping those
already in `seen` — the set of group keys a pandas groupby forms.
(pandas emits the groups sorted by key; none of the properties proved
below depend on the order of the groups.) -/
def firstUniq {α : Type} [DecidableEq α] : List α → List α → List α
  | [], _ => []
  | a :: rest, seen =>
      if a ∈ seen then firstUniq rest seen
      else a :: firstUniq rest (a :: seen)

/-- Group key of a review row for the app-level pass.  groupby with
dropna (the default) forms no group from a row whose app_id or app_name
is null. -/
def appKey (r : SRow) : Option (String × String) :=
  match r.app_id, r.app_name with
  | some a, some n => some (a, n)
  | _, _ => none

/-- Mean of the scores of a group of rows. -/
def meanScore (g : List SRow) : ℚ :=
  (g.map (fun r => (r.score : ℚ))).sum / g.length

/-- generate_app_level_kpis (serving_layer.py lines 22-44): group by
(app_id, app_name); num_reviews is the count aggregation on reviewId,
which counts the non-null cells; avg_rating the rounded mean score;
pct_low_rating is 100 times the number of scores at most 2 over
num_reviews, rounded; the date fields are min and max of at. -/
def generate_app_level_kpis (rows : List SRow) : List AppKPI :=
  (firstUniq (rows.filterMap appKey) []).map (fun p =>
    let g := rows.filter (fun r => appKey r == some p)
    let numReviews := (g.filter (fun r => r.reviewId.isSome)).length
    let lowCount := (g.filter (fun r => r.score ≤ 2)).length
    { app_id := p.1
      app_name := p.2
      num_reviews := numReviews
      avg_rating := round2 (meanScore g)
      pct_low_rating := round2 ((lowCount : ℚ) / numReviews * 100)
      first_review_date := match g.map SRow.at_ with
        | [] => 0
        | t :: ts => ts.foldl min t
      most_recent_review_date := match g.map SRow.at_ with
        | [] => 0
        | t :: ts => ts.foldl max t })

/-- generate_daily_metrics (serving_layer.py lines 50-68): group by the
calendar date of at; daily_num_reviews is again the non-null count of
reviewId; daily_avg_rating the rounded mean score; the series is sorted
ascending by date. -/
def generate_daily_metrics (rows : List SRow) : List DailyMetric :=
  (List.insertionSort (fun a b => a ≤ b)
      (firstUniq (rows.map (fun r => dateOf r.at_)) [])).map (fun d =>
    let g := rows.filter (fun r => dateOf r.at_ == d)
    { date := d
      daily_num_reviews := (g.filter (fun r => r.reviewId.isSome)).length
      daily_avg_rating := round2 (meanScore g) })

/-- Column names of the daily_metrics.csv the serving layer writes
(line 101): the reset groupby key followed by the two named
aggregations of lines 59-62. -/
def dailyMetricColumns : List String :=
  ["date", "daily_num_reviews", "daily_avg_rating"]

/-- The tables main of serving_layer.py can write. -/
inductive ServingOutput where
  | appKpis : List AppKPI → ServingOutput
  | dailyMetrics : List DailyMetric → ServingOutput
deriving DecidableEq

/-- What the serving layer finds when it starts: no processed file, a
file whose loading or timestamp parsing raises (zero-byte file, missing
columns, malformed dates — all before anything is written), or a loaded
table. -/
inductive ServingInput where
  | missingFile : ServingInput
  | unreadable : String → ServingInput
  | table : List SRow → ServingInput
deriving DecidableEq

/-- main of serving_layer.py (lines 74-102) as the sequence of tables it
writes.  A missing processed file prints an error and returns; a read or
parse failure raises at lines 85-88, before the first write; otherwise
the app KPI table is written (line 95) and then the daily metrics table
(line 101).  generate_app_level_kpis and generate_daily_metrics are
total on a loaded table, so no failure point separates the two
writes. -/
def serving_main : ServingInput → List ServingOutput
  | .missingFile => []
  | .unreadable _ => []
  | .table rows =>
      [.appKpis (generate_app_level_kpis rows),
       .dailyMetrics (generate_daily_metrics rows)]

/-- The dashboard's 7-day moving average (dashboard.py line 110):
Series.rolling with window 7 and min periods 1, then mean(), over the date-sorted
daily_avg_rating series — entry i is the mean of the trailing window of
the up to 7 entries at positions max(i-6,0) through i. -/
def rollingMean7 (xs : List ℚ) : List ℚ :=
  (List.range xs.length).map (fun i =>
    let w := (xs.take (i + 1)).drop (i + 1 - 7)
    w.sum / w.length)

/-! Concrete inputs used by witnesses and counterexamples. -/

/-- Short constructor for a merged review row whose userName, content
and thumbsUpCount are null. -/
def mkRaw (aid nm rid : Option String) (sc : Option ℚ) (t : Option Int) :
    RawReview :=
  { app_id := aid, app_name := nm, reviewId := rid, userName := none,
    score := sc, content := none, thumbsUpCount := none, at_ := t }

/-- Short constructor for a serving-layer row whose userName and content
are null and whose thumbsUpCount is 0. -/
def mkSRow (aid nm rid : Option String) (sc : Int) (t : Int) : SRow :=
  { app_id := aid, app_name := nm, reviewId := rid, userName := none,
    score := sc, content := none, thumbsUpCount := 0, at_ := t }

/-- A catalog entry with a non-null title. -/
def sampleCat : CatalogEntry :=
  { appId := some "app.one", title := some "Nice App", installs := 0,
    score := 0, price := 0 }

def c2cexInput : List RawReview :=
  [mkRaw (some "app.x") none (some "r1") (some 3) (some 0)]

def c2wCatalog : List CatalogEntry := [sampleCat]

def c2wRow : RawReview :=
  mkRaw (some "app.one") (some "Src Name") (some "r1") (some 4) (some 0)

def c3cexInput : List RawReview :=
  [mkRaw (some "a") none (some "r1") (some (Rat.mk' 5 2)) (some 0)]

def c3wRow : RawReview :=
  mkRaw (some "a") none (some "r1") (some 5) (some 0)

/-- First-declared source's record of review r1, valid, score 5. -/
def c4wFirst : RawReview :=
  mkRaw (some "a") none (some "r1") (some 5) (some 0)

/-- Second source's record of review r1, valid, score 1. -/
def c4wSecond : RawReview :=
  mkRaw (some "b") none (some "r1") (some 1) (some 10)

def c4wInput : List RawReview := [c4wFirst, c4wSecond]

/-- First-encountered record of review r1 in merge order: invalid
(score 6). -/
def c4cexFirst : RawReview :=
  mkRaw (some "a") none (some "r1") (some 6) (some 0)

/-- Later record of review r1: valid, score 3. -/
def c4cexSecond : RawReview :=
  mkRaw (some "a") none (some "r1") (some 3) (some 10)

def c4cexInput : List RawReview := [c4cexFirst, c4cexSecond]

/-- First-encountered record of review r1: unparseable timestamp. -/
def c10First : RawReview :=
  mkRaw (some "a") none (some "r1") (some 4) none

/-- Later record of review r1: valid. -/
def c10Second : RawReview :=
  mkRaw (some "a") none (some "r1") (some 2) (some 20)

def c10Input : List RawReview := [c10First, c10Second]

/-- Two reconciled rows of the same app where one row's app_name is
null: the groupby of the app-level pass drops the null-keyed row. -/
def c5cexRows : List SRow :=
  [mkSRow (some "a") (some "X") (some "r1") 5 0,
   mkSRow (some "a") none (some "r2") 4 0]

def c5wRows : List SRow :=
  [mkSRow (some "a") (some "A") (some "r1") 5 0,
   mkSRow (some "a") (some "A") (some "r2") 1 1500]

def c6catRow : RawCat :=
  { appId := some "app.one", title := some "Nice App", installs := none,
    score := none, price := none }

def c6revRow : RawReview :=
  mkRaw (some "app.one") none (some "r1") (some 5) (some 0)

def c8Row : RawReview :=
  mkRaw (some "a") none (some "r1") (some 5) (some 0)

/-! Helper lemmas. -/

theorem flatten_map_singleton {α β : Type} (f : α → β) (l : List α) :
    (l.map (fun a => [f a])).flatten = l.map f := by
  induction l with
  | nil => rfl
  | cons a rest ih => simp [ih]

theorem validRow_iff {r : RawReview} :
    validRow r = true ↔
      (r.at_.isSome = true ∧ ∃ s, r.score = some s ∧ 1 ≤ s ∧ s ≤ 5) := by
  unfold validRow
  cases hs : r.score <;> simp [hs]

theorem find?_eq_head?_filter {α : Type} (p : α → Bool) (l : List α) :
    l.find? p = (l.filter p).head? := by
  induction l with
  | nil => rfl
  | cons a rest ih =>
    by_cases h : p a
    · simp [List.find?, List.filter, h]
    · simp only [List.find?, List.filter, h]
      simpa [h] using ih

theorem mem_dropDuplicatesBy {α β : Type} [DecidableEq β] {key : α → β}
    {l : List α} {seen : List β} {r : α}
    (h : r ∈ dropDuplicatesBy key l seen) : r ∈ l := by
  induction l generalizing seen with
  | nil => simpa [dropDuplicatesBy] using h
  | cons a rest ih =>
    unfold dropDuplicatesBy at h
    by_cases hm : key a ∈ seen
    · simp only [hm, if_true] at h
      exact List.mem_cons_of_mem _ (ih h)
    · simp only [hm, if_false] at h
      rcases List.mem_cons.mp h with h | h
      · exact h ▸ List.mem_cons_self _ _
      · exact List.mem_cons_of_mem _ (ih h)

theorem dropDuplicatesBy_keys {α β : Type} [DecidableEq β] (key : α → β)
    (l : List α) : ∀ seen : List β,
      (∀ r ∈ dropDuplicatesBy key l seen, key r ∉ seen) ∧
        ((dropDuplicatesBy key l seen).map key).Nodup := by
  induction l with
  | nil => intro seen; simp [dropDuplicatesBy]
  | cons a rest ih =>
    intro seen
    unfold dropDuplicatesBy
    by_cases hm : key a ∈ seen
    · simpa [hm] using ih seen
    · obtain ⟨hseen, hnodup⟩ := ih (key a :: seen)
      refine ⟨?_, ?_⟩
      · simp only [hm, if_false]
        intro r hr
        rcases List.mem_cons.mp hr with h | h
        · exact h ▸ hm
        · exact fun hcontra => hseen r h (List.mem_cons_of_mem _ hcontra)
      · simp only [hm, if_false, List.map_cons, List.nodup_cons]
        refine ⟨?_, hnodup⟩
        intro hcontra
        obtain ⟨r, hr, hkr⟩ := List.mem_map.mp hcontra
        exact hseen r hr (hkr ▸ List.mem_cons_self _ _)

theorem dropDuplicatesBy_find? {α β : Type} [DecidableEq β] (key : α → β)
    (p : α → Bool) (kv : β) (hp : ∀ r, p r = true ↔ key r = kv)
    (l : List α) : ∀ {seen : List β}, kv ∉ seen →
      (dropDuplicatesBy key l seen).find? p = l.find? p := by
  induction l with
  | nil => intro seen _; rfl
  | cons a rest ih =>
    intro seen hk
    unfold dropDuplicatesBy
    by_cases hm : key a ∈ seen
    · have hne : p a = false := by
        rw [Bool.eq_false_iff]
        intro h
        exact hk ((hp a).mp h ▸ hm)
      simp only [hm, if_true, List.find?, hne]
      exact ih hk
    · by_cases hpa : p a
      · rw [if_neg hm]
        simp [List.find?, hpa]
      · have hne : p a = false := Bool.eq_false_iff.mpr hpa
        simp only [hm, if_false, List.find?, hne]
        exact ih (by
          intro h
          rcases List.mem_cons.mp h with h | h
          · exact hpa ((hp a).mpr h.symm)
          · exact hk h)

theorem enrichRow_mem {c : List CatalogEntry} {r : RawReview} {x : CleanReview}
    (h : x ∈ enrichRow c r) : ∃ nm, x = finalizeRow r nm := by
  unfold enrichRow at h
  rcases hf : c.filter (fun e => e.appId == r.app_id) with _ | ⟨e, es⟩
  · rw [hf] at h
    simp at h
    exact ⟨r.app_name, h⟩
  · rw [hf] at h
    obtain ⟨e', _, he'⟩ := List.mem_map.mp h
    exact ⟨e'.title <|> r.app_name, he'.symm⟩

theorem enrichRow_single {c : List CatalogEntry}
    (hc : ∀ a, (c.filter (fun e => e.appId == a)).length ≤ 1) (r : RawReview) :
    enrichRow c r = [finalizeRow r (resolvedName c r)] := by
  unfold enrichRow resolvedName lookupTitle
  rw [find?_eq_head?_filter]
  rcases hf : c.filter (fun e => e.appId == r.app_id) with _ | ⟨e, es⟩
  · rw [hf]
    simp
  · have hlen := hc r.app_id
    rw [hf] at hlen
    have hes : es = [] := by
      cases es with
      | nil => rfl
      | cons x xs => simp at hlen
    subst hes
    rw [hf]
    simp [List.map]

theorem transform_reviews_eq_map {c : List CatalogEntry} {m : List RawReview}
    (hc : ∀ a, (c.filter (fun e => e.appId == a)).length ≤ 1) :
    transform_reviews c m =
      (dropDuplicatesBy RawReview.reviewId (m.filter validRow) []).map
        (fun r => finalizeRow r (resolvedName c r)) := by
  unfold transform_reviews
  rw [show (dropDuplicatesBy RawReview.reviewId (m.filter validRow) []).map
        (enrichRow c) =
      (dropDuplicatesBy RawReview.reviewId (m.filter validRow) []).map
        (fun r => [finalizeRow r (resolvedName c r)]) from
    List.map_congr_left (fun r _ => enrichRow_single hc r)]
  exact flatten_map_singleton _ _

theorem floor_score_bounds {s : ℚ} (h1 : 1 ≤ s) (h5 : s ≤ 5) :
    1 ≤ ⌊s⌋ ∧ ⌊s⌋ ≤ 5 := by
  constructor
  · exact Int.le_floor.mpr (by exact_mod_cast h1)
  · calc ⌊s⌋ ≤ ⌊(5 : ℚ)⌋ := Int.floor_le_floor h5
      _ = 5 := by norm_num

theorem length_filter_add_not {α : Type} (p : α → Bool) (l : List α) :
    (l.filter p).length + (l.filter (fun a => !p a)).length = l.length := by
  induction l with
  | nil => rfl
  | cons a rest ih =>
    by_cases h : p a
    · rw [List.filter_cons_of_pos (by simp [h]),
        List.filter_cons_of_neg (by simp [h])]
      simp only [List.length_cons]
      omega
    · rw [List.filter_cons_of_neg (by simp [h]),
        List.filter_cons_of_pos (by simp [h])]
      simp only [List.length_cons]
      omega

theorem filter_of_filter_weaker {α : Type} {p q : α → Bool} (l : List α)
    (h : ∀ a ∈ l, q a = true → p a = true) :
    (l.filter p).filter q = l.filter q := by
  induction l with
  | nil => rfl
  | cons a rest ih =>
    have ihr := ih (fun b hb => h b (List.mem_cons_of_mem _ hb))
    by_cases hq : q a
    · have hp := h a (List.mem_cons_self _ _) hq
      rw [List.filter_cons_of_pos hp, List.filter_cons_of_pos hq,
        List.filter_cons_of_pos hq, ihr]
    · by_cases hp : p a
      · rw [List.filter_cons_of_pos hp,
          List.filter_cons_of_neg (by simpa using hq),
          List.filter_cons_of_neg (by simpa using hq), ihr]
      · rw [List.filter_cons_of_neg (by simpa using hp),
          List.filter_cons_of_neg (by simpa using hq), ihr]

theorem sum_filter_lengths {α β : Type} [BEq β] [LawfulBEq β] (f : α → β) :
    ∀ (keys : List β) (rows : List α), keys.Nodup →
      (∀ r ∈ rows, f r ∈ keys) →
      (keys.map (fun k => (rows.filter (fun r => f r == k)).length)).sum =
        rows.length := by
  intro keys
  induction keys with
  | nil =>
    intro rows _ hcov
    have : rows = [] := by
      cases rows with
      | nil => rfl
      | cons r rest => exact absurd (hcov r (List.mem_cons_self _ _)) (by simp)
    simp [this]
  | cons k ks ih =>
    intro rows hnodup hcov
    obtain ⟨hk, hks⟩ := List.nodup_cons.mp hnodup
    have hrest : ∀ r ∈ rows.filter (fun r => !(f r == k)), f r ∈ ks := by
      intro r hr
      obtain ⟨hmem, hne⟩ := List.mem_filter.mp hr
      rcases List.mem_cons.mp (hcov r hmem) with h | h
      · simp only [Bool.not_eq_true', beq_eq_false_iff_ne] at hne
        exact absurd h hne
      · exact h
    have hsame : ∀ k' ∈ ks,
        (rows.filter (fun r => f r == k')).length =
          ((rows.filter (fun r => !(f r == k))).filter
            (fun r => f r == k')).length := by
      intro k' hk'
      rw [filter_of_filter_weaker rows (by
        intro a _ hq
        simp only [beq_iff_eq] at hq
        simp only [Bool.not_eq_true', beq_eq_false_iff_ne]
        exact fun hcontra => hk (hcontra ▸ hq ▸ hk'))]
    have hmap : ks.map (fun k' => (rows.filter (fun r => f r == k')).length) =
        ks.map (fun k' => ((rows.filter (fun r => !(f r == k))).filter
          (fun r => f r == k')).length) :=
      List.map_congr_left (fun k' hk' => hsame k' hk')
    simp only [List.map_cons, List.sum_cons, hmap,
      ih (rows.filter (fun r => !(f r == k))) hks hrest]
    exact length_filter_add_not _ rows

theorem firstUniq_subset {α : Type} [DecidableEq α] {l seen : List α} {a : α}
    (h : a ∈ firstUniq l seen) : a ∈ l := by
  induction l generalizing seen with
  | nil => simpa [firstUniq] using h
  | cons b rest ih =>
    unfold firstUniq at h
    by_cases hm : b ∈ seen
    · simp only [hm, if_true] at h
      exact List.mem_cons_of_mem _ (ih h)
    · simp only [hm, if_false] at h
      rcases List.mem_cons.mp h with h | h
      · exact h ▸ List.mem_cons_self _ _
      · exact List.mem_cons_of_mem _ (ih h)

theorem firstUniq_props {α : Type} [DecidableEq α] (l : List α) :
    ∀ seen : List α, (∀ a ∈ firstUniq l seen, a ∉ seen) ∧
      (firstUniq l seen).Nodup := by
  induction l with
  | nil => intro seen; simp [firstUniq]
  | cons b rest ih =>
    intro seen
    unfold firstUniq
    by_cases hm : b ∈ seen
    · simpa [hm] using ih seen
    · obtain ⟨hseen, hnodup⟩ := ih (b :: seen)
      refine ⟨?_, ?_⟩
      · simp only [hm, if_false]
        intro a ha
        rcases List.mem_cons.mp ha with h | h
        · exact h ▸ hm
        · exact fun hcontra => hseen a h (List.mem_cons_of_mem _ hcontra)
      · simp only [hm, if_false, List.nodup_cons]
        exact ⟨fun hcontra => hseen b hcontra (List.mem_cons_self _ _), hnodup⟩

theorem mem_firstUniq {α : Type} [DecidableEq α] {l : List α} {a : α}
    (h : a ∈ l) : ∀ seen : List α, a ∉ seen → a ∈ firstUniq l seen := by
  induction l with
  | nil => exact absurd h (by simp)
  | cons b rest ih =>
    intro seen ha
    unfold firstUniq
    rcases List.mem_cons.mp h with hab | hmem
    · subst hab
      by_cases hm : a ∈ seen
      · exact absurd hm ha
      · simp [hm]
    · by_cases hm : b ∈ seen
      · simp only [hm, if_true]
        exact ih hmem seen ha
      · simp only [hm, if_false]
        by_cases hab : a = b
        · simp [hab]
        · exact List.mem_cons_of_mem _ (ih hmem (b :: seen) (by
            intro hcontra
            rcases List.mem_cons.mp hcontra with h | h
            · exact hab h
            · exact ha h))

/-! Claims. -/

/-- Claim C1, counterexample: the DailyMetric table produced by the
aggregation engine (generate_daily_metrics, written to daily_metrics.csv)
has no rolling_7day_avg field at all — its columns are exactly date,
daily_num_reviews and daily_avg_rating.  The rolling mean is computed
downstream by the dashboard under the name rating_7day_ma. -/
theorem C1_counterexample : "rolling_7day_avg" ∉ dailyMetricColumns := by
  decide

/-- Claim C1, amended: the 7-day moving average the dashboard computes
over the date-sorted daily series (rating_7day_ma, dashboard.py line
110) equals, at every position, the mean of daily_avg_rating over the
current row and up to 6 immediately preceding rows, the window shrinking
to 1 at the start: on a 10-point series the values are exactly the
running means below — in particular the 7th is the mean of rows 1-7 and
the 10th the mean of rows 4-10. -/
theorem C1_rolling_window (x1 x2 x3 x4 x5 x6 x7 x8 x9 x10 : ℚ) :
    rollingMean7 [x1, x2, x3, x4, x5, x6, x7, x8, x9, x10] =
      [x1, (x1 + x2) / 2, (x1 + x2 + x3) / 3, (x1 + x2 + x3 + x4) / 4,
       (x1 + x2 + x3 + x4 + x5) / 5, (x1 + x2 + x3 + x4 + x5 + x6) / 6,
       (x1 + x2 + x3 + x4 + x5 + x6 + x7) / 7,
       (x2 + x3 + x4 + x5 + x6 + x7 + x8) / 7,
       (x3 + x4 + x5 + x6 + x7 + x8 + x9) / 7,
       (x4 + x5 + x6 + x7 + x8 + x9 + x10) / 7] := by
  unfold rollingMean7
  rw [show List.length [x1, x2, x3, x4, x5, x6, x7, x8, x9, x10] = 10 from rfl,
    show List.range 10 = [0, 1, 2, 3, 4, 5, 6, 7, 8, 9] from rfl]
  simp only [List.map_cons, List.map_nil, List.take, List.drop,
    List.sum_cons, List.sum_nil, List.length_cons, List.length_nil,
    List.cons.injEq, and_true]
  norm_num
  and_intros <;> ring

/-- Claim C7, counterexample: an unparsable installs value does not
become null — clean_installs passes it to int(), whose ValueError
escapes and aborts the run. -/
theorem C7_counterexample :
    clean_installs (some "abc") = .error "ValueError" := by decide

/-- Claim C7, amended: a missing installs value becomes 0 and a
free-text count has commas and plus markers stripped before integer
conversion, but an unparsable installs value raises ValueError and
aborts the run; a literal Free or absent price becomes 0.0, both under
parse_price and under the to_numeric/fillna cleaning the pipeline
actually applies to the price column. -/
theorem C7_numeric_cleaning :
    clean_installs none = .ok 0 ∧
    clean_installs (some "10,000+") = .ok 10000 ∧
    parse_price none = .ok 0 ∧
    parse_price (some "Free") = .ok 0 ∧
    price_cleaned none = 0 ∧
    price_cleaned (some "Free") = 0 := by decide

/-- Claim C8, counterexample: the one counter the component emits (the
printed invalid-record count) takes the same value on an input with no
duplicate reviewIds and on an input with one dropped duplicate, while
the number of rows dropped for duplication differs — so the component
cannot be reporting a duplication counter, and it returns no counters to
the caller at all. -/
theorem C8_counterexample :
    invalidRemovedCount [c8Row] = invalidRemovedCount [c8Row, c8Row] ∧
    dupRemovedCount [c8Row] ≠ dupRemovedCount [c8Row, c8Row] := by decide

/-- Claim C8, amended: the component computes and prints exactly one
data-quality counter, the number of rows dropped for invalidity — the
printed initial_count minus the filtered length equals the number of
rows failing the validity predicate; rows dropped by the reviewId
deduplication are dropped silently and uncounted, and neither number is
returned to the caller. -/
theorem C8_invalid_counter (m : List RawReview) :
    invalidRemovedCount m = (m.filter (fun r => !validRow r)).length := by
  unfold invalidRemovedCount
  have h := length_filter_add_not validRow m
  omega

/-- Claim C9, confirmed: a run of the serving layer either emits both
output tables — the app KPI table first, the daily metrics table
second — or aborts before the first write and emits neither.  Every
failure point (missing processed file, unreadable file, timestamp parse
error) precedes the first write, and the two generators are total on a
loaded table. -/
theorem C9_outputs_atomic (inp : ServingInput) :
    (∃ k d, serving_main inp =
      [ServingOutput.appKpis k, ServingOutput.dailyMetrics d]) ∨
    serving_main inp = [] := by
  cases inp with
  | missingFile => exact Or.inr rfl
  | unreadable m => exact Or.inr rfl
  | table rows => exact Or.inl ⟨_, _, rfl⟩

/-- Claim C2, counterexample: a valid review whose app_id has no catalog
match and whose source supplied no app_name ends up in the final table
with a null app_name — the code never substitutes a sentinel string
unknown. -/
theorem C2_counterexample :
    (transform_reviews [] c2cexInput).map CleanReview.app_name = [none] := by
  decide

/-- Claim C2, amended: for every row of the final reconciled table,
app_name is the catalog title whenever the (deduplicated) catalog has a
matching entry with a non-null title, and otherwise it is exactly the
app_name some merged source row with the same app_id supplied — possibly
null; there is no sentinel. -/
theorem C2_app_name_resolution {c : List CatalogEntry} {m : List RawReview}
    (hc : ∀ a, (c.filter (fun e => e.appId == a)).length ≤ 1)
    {r : CleanReview} (hr : r ∈ transform_reviews c m) :
    (∀ t, lookupTitle c r.app_id = some t → r.app_name = some t) ∧
    (lookupTitle c r.app_id = none →
      ∃ s ∈ m, s.app_id = r.app_id ∧ s.app_name = r.app_name) := by
  rw [transform_reviews_eq_map hc] at hr
  obtain ⟨s, hs, rfl⟩ := List.mem_map.mp hr
  have hsm : s ∈ m := List.mem_of_mem_filter (mem_dropDuplicatesBy hs)
  constructor
  · intro t ht
    have hlt : lookupTitle c s.app_id = some t := ht
    show resolvedName c s = some t
    rw [resolvedName, hlt]
    rfl
  · intro hnone
    have hln : lookupTitle c s.app_id = none := hnone
    refine ⟨s, hsm, rfl, ?_⟩
    show s.app_name = resolvedName c s
    rw [resolvedName, hln]
    rfl

def c2wOut : CleanReview := finalizeRow c2wRow (some "Nice App")

/-- Witness for C2_app_name_resolution at a concrete catalog and row:
the catalog entry app.one has title Nice App, and the output row's
app_name is that title. -/
theorem C2_witness :
    (∀ a, (c2wCatalog.filter (fun e => e.appId == a)).length ≤ 1) ∧
    c2wOut ∈ transform_reviews c2wCatalog [c2wRow] ∧
    ((∀ t, lookupTitle c2wCatalog c2wOut.app_id = some t →
        c2wOut.app_name = some t) ∧
      (lookupTitle c2wCatalog c2wOut.app_id = none →
        ∃ s ∈ [c2wRow], s.app_id = c2wOut.app_id ∧
          s.app_name = c2wOut.app_name)) := by
  have hc : ∀ a, (c2wCatalog.filter (fun e => e.appId == a)).length ≤ 1 :=
    fun a => le_trans (List.length_filter_le _ _) (by decide)
  have hmem : c2wOut ∈ transform_reviews c2wCatalog [c2wRow] := by decide
  exact ⟨hc, hmem, C2_app_name_resolution hc hmem⟩

/-- Claim C3, counterexample: the merged row with score 5/2 — not a
member of the set of valid ratings — is not excluded: it survives the
filter (2.5 lies between 1 and 5) and its score is silently truncated to
the valid-looking value 2 by astype(int). -/
theorem C3_counterexample :
    (Rat.mk' 5 2 : ℚ) ∉ ([1, 2, 3, 4, 5] : List ℚ) ∧
    (transform_reviews [] c3cexInput).map CleanReview.score = [2] := by
  decide

/-- Claim C3, amended: every row of the final reconciled table has an
integer score between 1 and 5 and a successfully parsed timestamp; rows
whose timestamp fails to parse or whose numeric score lies outside
[1, 5] are excluded before aggregation — but a fractional score inside
[1, 5] is retained and silently truncated to an integer. -/
theorem C3_score_range {c : List CatalogEntry} {m : List RawReview}
    {r : CleanReview} (hr : r ∈ transform_reviews c m) :
    1 ≤ r.score ∧ r.score ≤ 5 ∧ r.at_.isSome = true := by
  unfold transform_reviews at hr
  obtain ⟨l, hl, hrl⟩ := List.mem_flatten.mp hr
  obtain ⟨s, hs, rfl⟩ := List.mem_map.mp hl
  obtain ⟨nm, rfl⟩ := enrichRow_mem hrl
  have hsf := mem_dropDuplicatesBy hs
  obtain ⟨hat, q, hq, h1, h5⟩ := validRow_iff.mp (List.of_mem_filter hsf)
  obtain ⟨hf1, hf5⟩ := floor_score_bounds h1 h5
  have hgd : s.score.getD 0 = q := by rw [hq]; rfl
  refine ⟨?_, ?_, hat⟩
  · show 1 ≤ ⌊s.score.getD 0⌋
    rw [hgd]; exact hf1
  · show ⌊s.score.getD 0⌋ ≤ 5
    rw [hgd]; exact hf5

def c3wOut : CleanReview := finalizeRow c3wRow none

/-- Witness for C3_score_range at a concrete input row. -/
theorem C3_witness :
    c3wOut ∈ transform_reviews [] [c3wRow] ∧
    (1 ≤ c3wOut.score ∧ c3wOut.score ≤ 5 ∧ c3wOut.at_.isSome = true) :=
  ⟨by decide, @C3_score_range [] [c3wRow] c3wOut (by decide)⟩

/-- Claim C4, counterexample: two merged rows share reviewId r1, the
first-encountered one (score 6) being invalid; the retained row is the
later one — the final table's only r1 row carries score 3, not a value
derived from the first-encountered row in merge order. -/
theorem C4_counterexample :
    c4cexInput.head? = some c4cexFirst ∧
    c4cexFirst.reviewId = some "r1" ∧
    c4cexFirst.score = some 6 ∧
    c4cexSecond.reviewId = some "r1" ∧
    (transform_reviews [] c4cexInput).map CleanReview.score = [3] := by
  decide

/-- Claim C4, amended: review_id values of the final reconciled table
are pairwise distinct, and among the rows that pass the validity filter
the first-encountered one in merge order wins: the final table's row for
a key is exactly the enrichment of the first valid merged row bearing
that key.  (When the first-encountered occurrence of the key is invalid,
a later valid occurrence survives instead — see C10.) -/
theorem C4_review_id_unique {c : List CatalogEntry} {m : List RawReview}
    (hc : ∀ a, (c.filter (fun e => e.appId == a)).length ≤ 1) :
    ((transform_reviews c m).map CleanReview.reviewId).Nodup ∧
    ∀ (k : Option String) (r : RawReview),
      (m.filter validRow).find? (fun s => s.reviewId == k) = some r →
      (transform_reviews c m).find? (fun x => x.reviewId == k) =
        some (finalizeRow r (resolvedName c r)) := by
  rw [transform_reviews_eq_map hc]
  constructor
  · rw [List.map_map]
    have hcomp : (CleanReview.reviewId ∘
        fun r => finalizeRow r (resolvedName c r)) = RawReview.reviewId := by
      funext s; rfl
    rw [hcomp]
    exact (dropDuplicatesBy_keys RawReview.reviewId (m.filter validRow) []).2
  · intro k r hfind
    rw [List.find?_map]
    have hcomp : ((fun x : CleanReview => x.reviewId == k) ∘
        fun s => finalizeRow s (resolvedName c s)) =
        fun s : RawReview => s.reviewId == k := by
      funext s; rfl
    rw [hcomp, dropDuplicatesBy_find? RawReview.reviewId
      (fun s => s.reviewId == k) k (fun s => by simp) (m.filter validRow)
      (List.not_mem_nil k), hfind]
    rfl

/-- Witness for C4_review_id_unique: two sources both contain review
r1 with different scores, both valid; the single surviving r1 row is the
enrichment of the first-declared source's record (score 5). -/
theorem C4_witness :
    validRow c4wFirst = true ∧ validRow c4wSecond = true ∧
    c4wFirst.score ≠ c4wSecond.score ∧
    (c4wInput.filter validRow).find?
      (fun s => s.reviewId == some "r1") = some c4wFirst ∧
    (transform_reviews [] c4wInput).find?
      (fun x => x.reviewId == some "r1") =
      some (finalizeRow c4wFirst (resolvedName [] c4wFirst)) := by
  refine ⟨by decide, by decide, by decide, by decide, ?_⟩
  exact (C4_review_id_unique (fun a => by simp)).2 (some "r1") c4wFirst
    (by decide)

/-- Claim C10, confirmed: deduplication runs only after validity
filtering, so when the first merge-order occurrence of a reviewId is
invalid and a later occurrence is valid, the later valid occurrence is
retained — the duplicate key does not drop all occurrences, and the
survivor differs from the first raw occurrence. -/
theorem C10_later_valid_survives {c : List CatalogEntry}
    {m : List RawReview} {k : Option String} {a b : RawReview}
    (hc : ∀ x, (c.filter (fun e => e.appId == x)).length ≤ 1)
    (hfirst : m.find? (fun s => s.reviewId == k) = some a)
    (hainv : validRow a = false)
    (hbfind : (m.filter validRow).find? (fun s => s.reviewId == k) = some b) :
    b ≠ a ∧
    (transform_reviews c m).find? (fun x => x.reviewId == k) =
      some (finalizeRow b (resolvedName c b)) := by
  have hbv : validRow b = true :=
    List.of_mem_filter (List.mem_of_find?_eq_some hbfind)
  constructor
  · intro he
    rw [he, hainv] at hbv
    exact absurd hbv (by decide)
  · rw [transform_reviews_eq_map hc, List.find?_map]
    have hcomp : ((fun x : CleanReview => x.reviewId == k) ∘
        fun s => finalizeRow s (resolvedName c s)) =
        fun s : RawReview => s.reviewId == k := by
      funext s; rfl
    rw [hcomp, dropDuplicatesBy_find? RawReview.reviewId
      (fun s => s.reviewId == k) k (fun s => by simp) (m.filter validRow)
      (List.not_mem_nil k), hbfind]
    rfl

/-- Witness for C10_later_valid_survives: the first r1 record has an
unparseable timestamp, the later one is valid and survives. -/
theorem C10_witness :
    c10Input.find? (fun s => s.reviewId == some "r1") = some c10First ∧
    validRow c10First = false ∧
    (c10Input.filter validRow).find?
      (fun s => s.reviewId == some "r1") = some c10Second ∧
    (c10Second ≠ c10First ∧
      (transform_reviews [] c10Input).find?
        (fun x => x.reviewId == some "r1") =
        some (finalizeRow c10Second (resolvedName [] c10Second))) := by
  refine ⟨by decide, by decide, by decide, ?_⟩
  exact C10_later_valid_survives (fun x => by simp) (by decide) (by decide)
    (by decide)

/-- Claim C6, code bug: when the configured metadata file is missing,
transform_apps_metadata prints an error and hands an empty column-less
DataFrame onward — clearly intending the run to continue — but
transform_reviews then raises KeyError selecting appId and title from
it, so the whole run aborts with no review output, although at least one
review source was present and valid.  By contrast, a missing review
source really is skipped (silently) and the remaining sources still
produce the reconciled table, as the second conjunct shows. -/
theorem C6_missing_metadata_fatal :
    transform_main SrcState.missing [(true, SrcState.present [c6revRow])] =
      .error "KeyError: appId, title" ∧
    transform_main (SrcState.present [c6catRow])
        [(true, SrcState.missing), (false, SrcState.present [c6revRow])] =
      .ok ([finalizeRow c6revRow (some "Nice App")], 0) := by
  decide

/-- Claim C5, counterexample: in a reconciled table holding two rows of
app a, one of which has a null app_name, the app-level groupby (which
drops null-keyed rows) yields a single KPI row for app a with
num_reviews 1, while the table contains 2 rows with that app_id. -/
theorem C5_counterexample :
    (generate_app_level_kpis c5cexRows).map
      (fun k => (k.app_id, k.num_reviews)) = [("a", 1)] ∧
    (c5cexRows.filter (fun r => r.app_id == some "a")).length = 2 := by
  decide

/-- Claim C5, amended: provided every reconciled row has a non-null
reviewId, non-null app_id and app_name, and app_name is functionally
determined by app_id, every AppKPI row's num_reviews equals the number
of reconciled rows bearing its app_id, and the daily_num_reviews of the
DailyMetric table sum to the total reconciled row count.  (Without those
provisos the counts diverge: groupby drops null keys and the count
aggregation on reviewId skips null cells — see the counterexample.) -/
theorem C5_aggregate_consistency (rows : List SRow)
    (h1 : ∀ r ∈ rows, r.reviewId.isSome = true)
    (h2 : ∀ r ∈ rows, r.app_id.isSome = true ∧ r.app_name.isSome = true)
    (h3 : ∀ r ∈ rows, ∀ s ∈ rows, r.app_id = s.app_id →
      r.app_name = s.app_name) :
    (∀ kpi ∈ generate_app_level_kpis rows,
      kpi.num_reviews =
        (rows.filter (fun r => r.app_id == some kpi.app_id)).length) ∧
    ((generate_daily_metrics rows).map DailyMetric.daily_num_reviews).sum =
      rows.length := by
  constructor
  · intro kpi hkpi
    unfold generate_app_level_kpis at hkpi
    obtain ⟨p, hp, rfl⟩ := List.mem_map.mp hkpi
    show ((rows.filter (fun r => appKey r == some p)).filter
        (fun r => r.reviewId.isSome)).length =
      (rows.filter (fun r => r.app_id == some p.1)).length
    have hmem : p ∈ rows.filterMap appKey := firstUniq_subset hp
    obtain ⟨r0, hr0, hk0⟩ := List.mem_filterMap.mp hmem
    have hfields : r0.app_id = some p.1 ∧ r0.app_name = some p.2 := by
      unfold appKey at hk0
      rcases hxa : r0.app_id with _ | x
      · rw [hxa] at hk0; simp at hk0
      · rcases hxn : r0.app_name with _ | y
        · rw [hxa, hxn] at hk0; simp at hk0
        · rw [hxa, hxn] at hk0
          simp only [Option.some.injEq] at hk0
          subst hk0
          exact ⟨rfl, rfl⟩
    have hfeq : rows.filter (fun r => appKey r == some p) =
        rows.filter (fun r => r.app_id == some p.1) := by
      apply List.filter_congr
      intro r hr
      obtain ⟨ha, hn⟩ := h2 r hr
      obtain ⟨xa, hxa⟩ := Option.isSome_iff_exists.mp ha
      obtain ⟨xn, hxn⟩ := Option.isSome_iff_exists.mp hn
      by_cases hcase : r.app_id = some p.1
      · have hsame : r.app_name = r0.app_name :=
          h3 r hr r0 hr0 (by rw [hcase, hfields.1])
        have hname : r.app_name = some p.2 := by rw [hsame, hfields.2]
        have hkey : appKey r = some (p.1, p.2) := by
          unfold appKey
          rw [hcase, hname]
        have hkey' : appKey r = some p := by rw [hkey, Prod.mk.eta]
        rw [hkey', hcase]
        simp
      · have hkey : appKey r ≠ some p := by
          intro hcontra
          unfold appKey at hcontra
          rw [hxa, hxn] at hcontra
          simp only [Option.some.injEq] at hcontra
          subst hcontra
          exact hcase hxa
        rw [beq_eq_false_iff_ne.mpr hkey, beq_eq_false_iff_ne.mpr hcase]
    rw [List.filter_eq_self.mpr
      (fun r hr => h1 r (List.mem_of_mem_filter hr)), hfeq]
  · unfold generate_daily_metrics
    rw [List.map_map]
    show ((List.insertionSort (fun a b => a ≤ b)
        (firstUniq (rows.map (fun r => dateOf r.at_)) [])).map
      (fun d => ((rows.filter (fun r => dateOf r.at_ == d)).filter
        (fun r => r.reviewId.isSome)).length)).sum = rows.length
    have hsimp : ∀ d ∈ List.insertionSort (fun a b => a ≤ b)
        (firstUniq (rows.map (fun r => dateOf r.at_)) []),
        ((rows.filter (fun r => dateOf r.at_ == d)).filter
          (fun r => r.reviewId.isSome)).length =
        (rows.filter (fun r => dateOf r.at_ == d)).length := by
      intro d _
      rw [List.filter_eq_self.mpr
        (fun r hr => h1 r (List.mem_of_mem_filter hr))]
    rw [List.map_congr_left hsimp,
      ((List.perm_insertionSort (fun a b => a ≤ b)
          (firstUniq (rows.map (fun r => dateOf r.at_)) [])).map
        (fun d => (rows.filter (fun r => dateOf r.at_ == d)).length)).sum_eq]
    exact sum_filter_lengths (fun r => dateOf r.at_)
      (firstUniq (rows.map (fun r => dateOf r.at_)) []) rows
      (firstUniq_props _ []).2
      (fun r hr => mem_firstUniq (List.mem_map_of_mem _ hr) []
        (List.not_mem_nil _))

/-- Witness for C5_aggregate_consistency on a concrete two-row table
meeting all three provisos. -/
theorem C5_witness :
    (∀ r ∈ c5wRows, r.reviewId.isSome = true) ∧
    (∀ r ∈ c5wRows, r.app_id.isSome = true ∧ r.app_name.isSome = true) ∧
    (∀ r ∈ c5wRows, ∀ s ∈ c5wRows, r.app_id = s.app_id →
      r.app_name = s.app_name) ∧
    ((∀ kpi ∈ generate_app_level_kpis c5wRows,
        kpi.num_reviews =
          (c5wRows.filter (fun r => r.app_id == some kpi.app_id)).length) ∧
      ((generate_daily_metrics c5wRows).map
        DailyMetric.daily_num_reviews).sum = c5wRows.length) := by
  refine ⟨by decide, by decide, by decide, ?_⟩
  exact C5_aggregate_consistency c5wRows (by decide) (by decide) (by decide)
